import Mathlib

/-!
Verification of the termination-handler repository.

The development shallowly embeds the Go sources:
  * `pkg/termination` condition reconciliation (`nodeHasTerminationCondition`,
    `addNodeTerminationCondition`, `markNodeForDeletion`),
  * the per-provider polling condition closures from the aws, azure and gcp
    handlers,
  * the polling loop (`k8s.io/apimachinery/pkg/util/wait.PollImmediateUntil`,
    the library primitive the handlers drive) and the supervisor `Run`.

Machine timestamps (`metav1.Now()`) are modelled as an explicit `now : Nat`
parameter; Go errors are modelled as `String`s built exactly as the
`fmt.Errorf` calls in the source build them; the cluster API client is
modelled by injected `get`/`update` results plus an operation trace.
-/

/-- `corev1.NodeConditionType` value `"Terminating"` (source constant
`terminatingConditionType`). -/
def terminatingConditionType : String := "Terminating"

/-- Source constant `terminationRequestedReason`. -/
def terminationRequestedReason : String := "TerminationRequested"

/-- `corev1.ConditionTrue`. -/
def conditionTrue : String := "True"

/-- `corev1.ConditionFalse`. -/
def conditionFalse : String := "False"

/-- `corev1.ConditionUnknown`. -/
def conditionUnknown : String := "Unknown"

/-- `corev1.NodeCondition`: the fields read or written by the handler.
`metav1.Time` values are modelled as `Nat`. -/
structure NodeCondition where
  type : String
  status : String
  lastHeartbeatTime : Nat
  lastTransitionTime : Nat
  reason : String
  message : String
deriving DecidableEq, Repr

/-- `corev1.NodeStatus`, restricted to the `Conditions` field, the only one
the handler touches. -/
structure NodeStatus where
  conditions : List NodeCondition
deriving DecidableEq, Repr

/-- `corev1.Node`, restricted to its status. -/
structure Node where
  status : NodeStatus
deriving DecidableEq, Repr

/-- Source `nodeHasTerminationCondition`: scans `node.Status.Conditions` for a
condition whose `Type` equals `terminatingConditionType`. -/
def nodeHasTerminationCondition (node : Node) : Bool :=
  node.status.conditions.any (fun condition => condition.type == terminatingConditionType)

/-- The condition literal built at the top of `addNodeTerminationCondition`
(type Terminating, status True, both timestamps `now`, fixed reason and
message). -/
def terminatingCondition (now : Nat) : NodeCondition :=
  { type := terminatingConditionType
    status := conditionTrue
    lastHeartbeatTime := now
    lastTransitionTime := now
    reason := terminationRequestedReason
    message := "The cloud provider has marked this instance for termination" }

/-- The merge loop of `addNodeTerminationCondition` (the `for` loop building
the fresh `conditions` slice): conditions of another type are kept, a
Terminating condition whose status is already True is kept, any other
Terminating condition is replaced by `terminating`. -/
def mergeConditions (terminating : NodeCondition) : List NodeCondition → List NodeCondition
  | [] => []
  | condition :: rest =>
    if condition.type != terminatingConditionType then
      condition :: mergeConditions terminating rest
    else if condition.status == conditionTrue then
      condition :: mergeConditions terminating rest
    else
      terminating :: mergeConditions terminating rest

/-- Source `addNodeTerminationCondition`: if no Terminating condition exists
the new condition is appended, otherwise the merge loop rebuilds the list. -/
def addNodeTerminationCondition (now : Nat) (node : Node) : Node :=
  if !nodeHasTerminationCondition node then
    { node with status := { conditions := node.status.conditions ++ [terminatingCondition now] } }
  else
    { node with status := { conditions := mergeConditions (terminatingCondition now) node.status.conditions } }

/-- Number of conditions of type Terminating in a condition list. -/
def countTerminating : List NodeCondition → Nat
  | [] => 0
  | condition :: rest =>
    (if condition.type == terminatingConditionType then 1 else 0) + countTerminating rest

lemma mergeConditions_length (terminating : NodeCondition) (l : List NodeCondition) :
    (mergeConditions terminating l).length = l.length := by
  induction l with
  | nil => rfl
  | cons c rest ih =>
    simp only [mergeConditions]
    split
    · simpa using ih
    · split <;> simpa using ih

@[simp] lemma terminatingCondition_type (now : Nat) :
    (terminatingCondition now).type = terminatingConditionType := rfl

@[simp] lemma terminatingCondition_status (now : Nat) :
    (terminatingCondition now).status = conditionTrue := rfl

@[simp] lemma terminatingCondition_reason (now : Nat) :
    (terminatingCondition now).reason = terminationRequestedReason := rfl

/-- The merge rewrites the condition list position by position without moving
any entry: the sequence of condition types is unchanged. -/
lemma mergeConditions_map_type (now : Nat) (l : List NodeCondition) :
    (mergeConditions (terminatingCondition now) l).map (fun c => c.type) =
      l.map (fun c => c.type) := by
  induction l with
  | nil => rfl
  | cons c rest ih =>
    simp only [mergeConditions]
    split
    · simp [ih]
    · rename_i hty
      have hc : c.type = terminatingConditionType := by
        simpa [bne_iff_ne] using hty
      split
      · simp [ih]
      · simp [ih, hc]

lemma mergeConditions_countTerminating (now : Nat) (l : List NodeCondition) :
    countTerminating (mergeConditions (terminatingCondition now) l) = countTerminating l := by
  induction l with
  | nil => rfl
  | cons c rest ih =>
    simp only [mergeConditions]
    split
    · simp [countTerminating, ih]
    · split
      · simp [countTerminating, ih]
      · rename_i hty _
        have : c.type = terminatingConditionType := by
          simpa [bne_iff_ne] using hty
        simp [countTerminating, ih, this]

lemma mergeConditions_all_true_id (terminating : NodeCondition) (l : List NodeCondition)
    (h : ∀ c ∈ l, c.type = terminatingConditionType → c.status = conditionTrue) :
    mergeConditions terminating l = l := by
  induction l with
  | nil => rfl
  | cons c rest ih =>
    have hrest : ∀ c ∈ rest, c.type = terminatingConditionType → c.status = conditionTrue :=
      fun x hx => h x (List.mem_cons_of_mem _ hx)
    simp only [mergeConditions]
    split
    · rw [ih hrest]
    · rename_i hty
      have hc : c.type = terminatingConditionType := by
        simpa [bne_iff_ne] using hty
      have hs : c.status = conditionTrue := h c (List.mem_cons_self _ _) hc
      simp [hs, ih hrest]

lemma mergeConditions_status_true (now : Nat) (l : List NodeCondition) :
    ∀ c ∈ mergeConditions (terminatingCondition now) l,
      c.type = terminatingConditionType → c.status = conditionTrue := by
  induction l with
  | nil => intro c hc; cases hc
  | cons c rest ih =>
    simp only [mergeConditions]
    split
    · rename_i hty
      intro x hx hxt
      rcases List.mem_cons.mp hx with h | h
      · subst h
        exact absurd hxt (by simpa [bne_iff_ne] using hty)
      · exact ih x h hxt
    · split
      · rename_i hst
        intro x hx hxt
        rcases List.mem_cons.mp hx with h | h
        · subst h; simpa using hst
        · exact ih x h hxt
      · intro x hx hxt
        rcases List.mem_cons.mp hx with h | h
        · subst h; rfl
        · exact ih x h hxt

lemma mergeConditions_mem (terminating : NodeCondition) (l : List NodeCondition) :
    ∀ c ∈ mergeConditions terminating l, c ∈ l ∨ c = terminating := by
  induction l with
  | nil => intro c hc; cases hc
  | cons c rest ih =>
    simp only [mergeConditions]
    split
    · intro x hx
      rcases List.mem_cons.mp hx with h | h
      · exact Or.inl (h ▸ List.mem_cons_self _ _)
      · rcases ih x h with h' | h'
        · exact Or.inl (List.mem_cons_of_mem _ h')
        · exact Or.inr h'
    · split
      · intro x hx
        rcases List.mem_cons.mp hx with h | h
        · exact Or.inl (h ▸ List.mem_cons_self _ _)
        · rcases ih x h with h' | h'
          · exact Or.inl (List.mem_cons_of_mem _ h')
          · exact Or.inr h'
      · intro x hx
        rcases List.mem_cons.mp hx with h | h
        · exact Or.inr h
        · rcases ih x h with h' | h'
          · exact Or.inl (List.mem_cons_of_mem _ h')
          · exact Or.inr h'

lemma countTerminating_eq_zero_of_not_has (l : List NodeCondition)
    (h : l.any (fun c => c.type == terminatingConditionType) = false) :
    countTerminating l = 0 := by
  induction l with
  | nil => rfl
  | cons c rest ih =>
    simp only [List.any_cons, Bool.or_eq_false_iff] at h
    simp [countTerminating, h.1, ih h.2]

lemma countTerminating_pos_of_has (l : List NodeCondition)
    (h : l.any (fun c => c.type == terminatingConditionType) = true) :
    1 ≤ countTerminating l := by
  induction l with
  | nil => cases h
  | cons c rest ih =>
    simp only [List.any_cons, Bool.or_eq_true] at h
    rcases h with h | h
    · simp [countTerminating, h]
    · have := ih h
      simp only [countTerminating]
      omega

lemma exists_terminating_of_count_pos (l : List NodeCondition)
    (h : 1 ≤ countTerminating l) :
    ∃ c ∈ l, c.type = terminatingConditionType := by
  induction l with
  | nil => simp [countTerminating] at h
  | cons c rest ih =>
    by_cases hc : c.type = terminatingConditionType
    · exact ⟨c, List.mem_cons_self _ _, hc⟩
    · simp only [countTerminating, hc] at h
      simp only [beq_iff_eq, if_neg hc] at h
      rcases ih (by omega) with ⟨x, hx, hxt⟩
      exact ⟨x, List.mem_cons_of_mem _ hx, hxt⟩

/-- `fmt`'s `%q` verb applied to a string without escapes (the fixed endpoint
URLs contain none): the string wrapped in double quotes. -/
def goQuote (s : String) : String := "\"" ++ s ++ "\""

/-- Source constant `awsTerminationEndpointURL`. -/
def awsTerminationEndpointURL : String :=
  "http://169.254.169.254/latest/meta-data/spot/termination-time"

/-- Source constant `azureTerminationEndpointURL`. -/
def azureTerminationEndpointURL : String :=
  "http://169.254.169.254/metadata/scheduledevents?api-version=2019-08-01"

/-- Source constant `gcpTerminationEndpointURL`. -/
def gcpTerminationEndpointURL : String :=
  "http://169.254.169.254/computeMetadata/v1/instance/preempted"

/-- `http.StatusNotFound`. -/
def httpStatusNotFound : Nat := 404

/-- `http.StatusOK`. -/
def httpStatusOK : Nat := 200

/-- The polling closure of `awsHandler.run`: its input is the outcome of
`http.Get` (a transport error or a status code).  404 means not terminating,
200 means terminating, anything else is an error; a transport error is
wrapped with the URL. -/
def awsPollCondition (resp : Except String Nat) : Except String Bool :=
  match resp with
  | .error e => .error ("could not get URL " ++ goQuote awsTerminationEndpointURL ++ ": " ++ e)
  | .ok statusCode =>
    if statusCode == httpStatusNotFound then
      .ok false
    else if statusCode == httpStatusOK then
      .ok true
    else
      .error ("unexpected status: " ++ toString statusCode)

/-- Source constant `preemptEventType`. -/
def preemptEventType : String := "Preempt"

/-- Source struct `events` (one scheduled-events entry). -/
structure events where
  EventType : String
deriving DecidableEq, Repr

/-- Source struct `scheduledEvents` (the azure metadata response shape). -/
structure scheduledEvents where
  Events : List events
deriving DecidableEq, Repr

/-- The event-scanning loop of `azureHandler.run`: reports true on the first
event whose `EventType` is `preemptEventType`, false when the list runs out. -/
def hasPreemptEvent : List events → Bool
  | [] => false
  | event :: rest =>
    if event.EventType == preemptEventType then true else hasPreemptEvent rest

/-- The polling closure of `azureHandler.run`, modelled from the point the
response body is in hand: its input is the result of `json.Unmarshal` on the
body (`encoding/json` itself is external library code, abstracted as an
`Except`).  A body that does not unmarshal is an error; otherwise the probe
reports whether some event is a Preempt event. -/
def azurePollCondition (body : Except String scheduledEvents) : Except String Bool :=
  match body with
  | .error e => .error ("failed to unmarshal responce body: " ++ e)
  | .ok s => .ok (hasPreemptEvent s.Events)

/-- The polling closure of `gcpHandler.run`, modelled from the point the
response body string is in hand: terminating exactly when the body is
"TRUE", otherwise not terminating. -/
def gcpPollCondition (respBody : String) : Except String Bool :=
  if respBody == "TRUE" then .ok true else .ok false

/-- Outcome of the polling loop. -/
inductive PollOutcome where
  | detected
  | errored (e : String)
  | cancelled
deriving DecidableEq, Repr

/-- Message of `wait.ErrWaitTimeout`, which `wait.PollImmediateUntil` returns
when the stop channel closes. -/
def errWaitTimeoutMessage : String := "timed out waiting for the condition"

/-- `wait.PollImmediateUntil(interval, conditionFunc, stopCh)` over a finite
sequence of simulated probe inputs.  The first probe runs immediately at
time `t`; after a "not terminating" answer the loop waits one interval and
probes again; a true answer or an error ends the loop at once; exhaustion of
the sequence is the loop observing the closed stop channel at the iteration
boundary.  Returns the times at which probes ran and the outcome. -/
def pollImmediateUntil (step : α → Except String Bool) (interval : Nat) :
    Nat → List α → List Nat × PollOutcome
  | _, [] => ([], .cancelled)
  | t, r :: rs =>
    match step r with
    | .error e => ([t], .errored e)
    | .ok true => ([t], .detected)
    | .ok false =>
      match pollImmediateUntil step interval (t + interval) rs with
      | (ts, out) => (t :: ts, out)

/-- One cluster API call observed during a run. -/
inductive ApiOp where
  | getNode (name : String)
  | updateStatus (node : Node)
deriving DecidableEq, Repr

/-- Number of status-update writes in an operation trace. -/
def countUpdates : List ApiOp → Nat
  | [] => 0
  | .getNode _ :: rest => countUpdates rest
  | .updateStatus _ :: rest => 1 + countUpdates rest

/-- Source `markNodeForDeletion`, with the cluster client injected: `get` is
the result of `ctrlRuntimeClient.Get` for the node, `update` the error (if
any) that `ctrlRuntimeClient.Status().Update` reports for the written node.
Returns the Go function's error result together with the API calls issued.
A failed fetch is wrapped with its cause; a failed update is reported as the
fixed message the source builds (its `fmt.Errorf` has no cause verb). -/
def markNodeForDeletion (now : Nat) (nodeName : String)
    (get : Except String Node) (update : Node → Option String) :
    Except String Unit × List ApiOp :=
  match get with
  | .error e => (.error ("error fetching node: " ++ e), [.getNode nodeName])
  | .ok node =>
    let written := addNodeTerminationCondition now node
    match update written with
    | some _ => (.error "error updating node status", [.getNode nodeName, .updateStatus written])
    | none => (.ok (), [.getNode nodeName, .updateStatus written])

/-- What a handler run did: when each probe fired (first probe at elapsed
time 0), how many times `markNodeForDeletion` was invoked, and the cluster
API calls made. -/
structure RunTrace where
  probeTimes : List Nat
  reconcileCalls : Nat
  apiOps : List ApiOp
deriving DecidableEq, Repr

/-- The body of `run` shared by the three handlers (aws.go, gcp.go and the
azure file are line-for-line parallel here): poll until detection, error or
cancellation; wrap a poll error with "error polling termination endpoint";
on detection call `markNodeForDeletion` once and wrap its error with "error
marking machine".  The variant enters through its `step` closure. -/
def handlerRun (step : α → Except String Bool) (interval : Nat) (responses : List α)
    (now : Nat) (nodeName : String)
    (get : Except String Node) (update : Node → Option String) :
    Except String Unit × RunTrace :=
  match pollImmediateUntil step interval 0 responses with
  | (ts, .errored e) =>
    (.error ("error polling termination endpoint: " ++ e), ⟨ts, 0, []⟩)
  | (ts, .cancelled) =>
    (.error ("error polling termination endpoint: " ++ errWaitTimeoutMessage), ⟨ts, 0, []⟩)
  | (ts, .detected) =>
    match markNodeForDeletion now nodeName get update with
    | (.error e, ops) => (.error ("error marking machine: " ++ e), ⟨ts, 1, ops⟩)
    | (.ok _, ops) => (.ok (), ⟨ts, 1, ops⟩)

/-- The stop branch of the supervisor `Run` (the `case <-stop` arm of its
`select`): cancellation is requested, `wg.Wait()` joins the background unit
— modelled by the background run's trace being fully computed, with the
response list ending at the iteration boundary where the closed context is
observed — and `Run` returns nil, discarding the unit's own result. -/
def RunStopBranch (step : α → Except String Bool) (interval : Nat) (observed : List α)
    (now : Nat) (nodeName : String)
    (get : Except String Node) (update : Node → Option String) :
    Except String Unit × RunTrace :=
  (.ok (), (handlerRun step interval observed now nodeName get update).2)

/-- The completion branch of the supervisor `Run` (the `case err := <-errs`
arm): the background unit's result is returned as is. -/
def RunErrBranch (step : α → Except String Bool) (interval : Nat) (responses : List α)
    (now : Nat) (nodeName : String)
    (get : Except String Node) (update : Node → Option String) :
    Except String Unit × RunTrace :=
  handlerRun step interval responses now nodeName get update

lemma countTerminating_append (l1 l2 : List NodeCondition) :
    countTerminating (l1 ++ l2) = countTerminating l1 + countTerminating l2 := by
  induction l1 with
  | nil => simp [countTerminating]
  | cons c rest ih => simp [countTerminating, ih]; omega

lemma not_terminating_of_not_has (l : List NodeCondition)
    (h : l.any (fun c => c.type == terminatingConditionType) = false) :
    ∀ c ∈ l, c.type ≠ terminatingConditionType := by
  intro c hc
  simp only [List.any_eq_false] at h
  simpa using h c hc

/-- Sample condition: a healthy kubelet Ready entry. -/
def readyCondition : NodeCondition :=
  ⟨"Ready", "True", 10, 20, "KubeletReady", "kubelet is ready"⟩

/-- Sample condition: a DiskPressure entry. -/
def diskPressureCondition : NodeCondition :=
  ⟨"DiskPressure", "False", 11, 21, "NoDiskPressure", "ok"⟩

/-- Sample condition: a stale Terminating entry whose status is False. -/
def staleTerminating : NodeCondition :=
  ⟨"Terminating", "False", 1, 2, "OldReason", "old"⟩

/-- Sample condition: a Terminating entry already True but written by someone
else (reason and message differ from the handler's constants). -/
def foreignTerminatingTrue : NodeCondition :=
  ⟨"Terminating", "True", 3, 4, "SomeOtherReason", "set externally"⟩

lemma addNodeTerminationCondition_noop (now : Nat) (node : Node)
    (hall : ∀ c ∈ node.status.conditions,
      c.type = terminatingConditionType → c.status = conditionTrue)
    (hhas : nodeHasTerminationCondition node = true) :
    addNodeTerminationCondition now node = node := by
  obtain ⟨⟨l⟩⟩ := node
  simp only [addNodeTerminationCondition, hhas, Bool.not_true, Bool.false_eq_true,
    if_false]
  rw [mergeConditions_all_true_id _ _ hall]

/-- C1 counterexample: on a condition list that already carries two
Terminating entries (both with status False) the merge replaces both, so the
result still has two conditions of type Terminating — more than one. -/
theorem addNodeTerminationCondition_two_terminating_cex :
    ¬ countTerminating
        (addNodeTerminationCondition 5
          ⟨⟨[staleTerminating, ⟨"Terminating", "Unknown", 6, 7, "r", "m"⟩]⟩⟩).status.conditions ≤ 1 := by
  decide

/-- C1 (amended): for every node whose condition list carries at most one
Terminating condition, after `addNodeTerminationCondition` at most one
condition of type Terminating exists; if none existed the new condition is
appended at the end, and if one existed the sequence of condition types is
unchanged position by position (so the Terminating entry keeps its place). -/
theorem addNodeTerminationCondition_unique_and_position (now : Nat) (node : Node)
    (h : countTerminating node.status.conditions ≤ 1) :
    countTerminating (addNodeTerminationCondition now node).status.conditions ≤ 1
    ∧ (nodeHasTerminationCondition node = false →
        (addNodeTerminationCondition now node).status.conditions =
          node.status.conditions ++ [terminatingCondition now])
    ∧ (nodeHasTerminationCondition node = true →
        (addNodeTerminationCondition now node).status.conditions.map (fun c => c.type) =
          node.status.conditions.map (fun c => c.type)) := by
  obtain ⟨⟨l⟩⟩ := node
  by_cases hhas : nodeHasTerminationCondition ⟨⟨l⟩⟩ = true
  · refine ⟨?_, ?_, ?_⟩
    · simp only [addNodeTerminationCondition, hhas, Bool.not_true, Bool.false_eq_true, if_false]
      simpa [mergeConditions_countTerminating] using h
    · intro hfalse; rw [hhas] at hfalse; cases hfalse
    · intro _
      simp only [addNodeTerminationCondition, hhas, Bool.not_true, Bool.false_eq_true, if_false]
      exact mergeConditions_map_type now l
  · rw [Bool.not_eq_true] at hhas
    refine ⟨?_, ?_, ?_⟩
    · simp only [addNodeTerminationCondition, hhas, Bool.not_false, if_true]
      have hz : countTerminating l = 0 :=
        countTerminating_eq_zero_of_not_has l hhas
      simp [countTerminating_append, hz, countTerminating]
    · intro _
      simp only [addNodeTerminationCondition, hhas, Bool.not_false, if_true]
    · intro htrue; rw [hhas] at htrue; cases htrue

/-- C1 witness: a node with conditions [Ready, Terminating(False),
DiskPressure] has at most one Terminating entry, and after the merge the
sequence of condition types is unchanged. -/
theorem addNodeTerminationCondition_unique_and_position_witness :
    ((addNodeTerminationCondition 30
        ⟨⟨[readyCondition, staleTerminating, diskPressureCondition]⟩⟩).status.conditions.map
          (fun c => c.type)) =
      [readyCondition, staleTerminating, diskPressureCondition].map (fun c => c.type) :=
  (addNodeTerminationCondition_unique_and_position 30
    ⟨⟨[readyCondition, staleTerminating, diskPressureCondition]⟩⟩ (by decide)).2.2 (by decide)

/-- C2 counterexample: a condition list that contains a Terminating condition
with status True, but also a second, stale Terminating entry; the merge
replaces the stale entry, so the list is not left exactly equal. -/
theorem merge_not_idempotent_cex :
    (∃ c ∈ (Node.mk ⟨[foreignTerminatingTrue, staleTerminating]⟩).status.conditions,
        c.type = terminatingConditionType ∧ c.status = conditionTrue)
    ∧ addNodeTerminationCondition 9 ⟨⟨[foreignTerminatingTrue, staleTerminating]⟩⟩ ≠
        ⟨⟨[foreignTerminatingTrue, staleTerminating]⟩⟩ := by
  decide

/-- C2 (amended): for every node that carries a Terminating condition and
whose Terminating conditions all have status True,
`addNodeTerminationCondition` leaves the node exactly equal to its previous
value (same entries, same timestamps), and a second application yields the
same list again. -/
theorem merge_idempotent_on_true (now : Nat) (node : Node)
    (hhas : nodeHasTerminationCondition node = true)
    (hall : ∀ c ∈ node.status.conditions,
      c.type = terminatingConditionType → c.status = conditionTrue) :
    addNodeTerminationCondition now node = node
    ∧ ∀ now2 : Nat,
        addNodeTerminationCondition now2 (addNodeTerminationCondition now node) =
          addNodeTerminationCondition now node := by
  have h1 := addNodeTerminationCondition_noop now node hall hhas
  refine ⟨h1, fun now2 => ?_⟩
  rw [h1, addNodeTerminationCondition_noop now2 node hall hhas]

/-- C2 witness: a node already carrying [Ready, Terminating(True)] is left
untouched by the merge. -/
theorem merge_idempotent_on_true_witness :
    addNodeTerminationCondition 42 ⟨⟨[readyCondition, foreignTerminatingTrue]⟩⟩ =
      ⟨⟨[readyCondition, foreignTerminatingTrue]⟩⟩ :=
  (merge_idempotent_on_true 42 ⟨⟨[readyCondition, foreignTerminatingTrue]⟩⟩
    (by decide) (by decide)).1

/-- C9 counterexample: a Terminating condition whose status is already True
is kept verbatim, so its reason need not be "TerminationRequested" and its
message need not be the fixed text after the merge. -/
theorem terminating_fields_not_forced_cex :
    ¬ ∀ c ∈ (addNodeTerminationCondition 7 ⟨⟨[foreignTerminatingTrue]⟩⟩).status.conditions,
        c.type = terminatingConditionType →
          (c.status = conditionTrue ∧ c.reason = terminationRequestedReason ∧
            c.message = "The cloud provider has marked this instance for termination") := by
  decide

/-- C9 (amended): for every input node — including condition lists with
several Terminating entries or Terminating entries with status False or
Unknown — after `addNodeTerminationCondition` at least one condition of type
Terminating exists and every condition of type Terminating has status True;
each such condition is either an entry the input already carried (kept
verbatim, with its original reason and message) or the freshly built
condition, whose reason is "TerminationRequested" and whose message is the
fixed text. -/
theorem addNodeTerminationCondition_status_invariant (now : Nat) (node : Node) :
    (∃ c ∈ (addNodeTerminationCondition now node).status.conditions,
        c.type = terminatingConditionType)
    ∧ (∀ c ∈ (addNodeTerminationCondition now node).status.conditions,
        c.type = terminatingConditionType → c.status = conditionTrue)
    ∧ (∀ c ∈ (addNodeTerminationCondition now node).status.conditions,
        c.type = terminatingConditionType →
          (c ∈ node.status.conditions ∨ c = terminatingCondition now)) := by
  obtain ⟨⟨l⟩⟩ := node
  by_cases hhas : nodeHasTerminationCondition ⟨⟨l⟩⟩ = true
  · simp only [addNodeTerminationCondition, hhas, Bool.not_true, Bool.false_eq_true, if_false]
    refine ⟨?_, ?_, ?_⟩
    · apply exists_terminating_of_count_pos
      rw [mergeConditions_countTerminating]
      exact countTerminating_pos_of_has l hhas
    · exact mergeConditions_status_true now l
    · intro c hc _
      exact mergeConditions_mem (terminatingCondition now) l c hc
  · rw [Bool.not_eq_true] at hhas
    simp only [addNodeTerminationCondition, hhas, Bool.not_false, if_true]
    have hnone := not_terminating_of_not_has l hhas
    refine ⟨?_, ?_, ?_⟩
    · exact ⟨terminatingCondition now, by simp, rfl⟩
    · intro c hc hct
      rcases List.mem_append.mp hc with h | h
      · exact absurd hct (hnone c h)
      · rcases List.mem_singleton.mp h with rfl
        rfl
    · intro c hc _
      rcases List.mem_append.mp hc with h | h
      · exact Or.inl h
      · exact Or.inr (List.mem_singleton.mp h)

/-- C9 witness: on the condition list [Terminating(Unknown), Terminating
(False), Ready] every Terminating entry of the result has status True. -/
theorem addNodeTerminationCondition_status_invariant_witness :
    ∀ c ∈ (addNodeTerminationCondition 8
        ⟨⟨[⟨"Terminating", "Unknown", 6, 7, "r", "m"⟩, staleTerminating,
           readyCondition]⟩⟩).status.conditions,
      c.type = terminatingConditionType → c.status = conditionTrue :=
  (addNodeTerminationCondition_status_invariant 8
    ⟨⟨[⟨"Terminating", "Unknown", 6, 7, "r", "m"⟩, staleTerminating, readyCondition]⟩⟩).2.1

/-- C10: whenever the node fetch succeeds, `markNodeForDeletion` issues
exactly one status-update write — also in the no-op merge case where the
condition list is unchanged. -/
theorem markNodeForDeletion_single_update (now : Nat) (nodeName : String)
    (node : Node) (update : Node → Option String) :
    countUpdates (markNodeForDeletion now nodeName (Except.ok node) update).2 = 1 := by
  simp only [markNodeForDeletion]
  cases update (addNodeTerminationCondition now node) <;> simp [countUpdates]

lemma pollImmediateUntil_replicate_detect (step : α → Except String Bool) (a b : α)
    (ha : step a = Except.ok false) (hb : step b = Except.ok true) (interval : Nat) :
    ∀ (k t : Nat),
      pollImmediateUntil step interval t (List.replicate k a ++ [b]) =
        ((List.range (k + 1)).map (fun i => t + i * interval), PollOutcome.detected) := by
  intro k
  induction k with
  | zero =>
    intro t
    simp [pollImmediateUntil, hb, List.range_succ]
  | succ k ih =>
    intro t
    rw [List.replicate_succ, List.cons_append]
    simp only [pollImmediateUntil, ha]
    rw [ih (t + interval)]
    have harith : (List.range (k + 1)).map (fun i => t + interval + i * interval) =
        (List.range (k + 1)).map ((fun i => t + i * interval) ∘ Nat.succ) := by
      congr 1
      funext i
      simp only [Function.comp, Nat.succ_eq_add_one]
      ring
    rw [List.range_succ_eq_map (k + 1), List.map_cons, List.map_map, ← harith]
    simp

lemma pollImmediateUntil_all_false (step : α → Except String Bool) (interval : Nat) :
    ∀ (rs : List α) (t : Nat), (∀ r ∈ rs, step r = Except.ok false) →
      pollImmediateUntil step interval t rs =
        ((List.range rs.length).map (fun i => t + i * interval), PollOutcome.cancelled) := by
  intro rs
  induction rs with
  | nil => intro t _; simp [pollImmediateUntil]
  | cons r rest ih =>
    intro t h
    have hr : step r = Except.ok false := h r (List.mem_cons_self _ _)
    simp only [pollImmediateUntil, hr]
    rw [ih (t + interval) (fun x hx => h x (List.mem_cons_of_mem _ hx))]
    have harith : (List.range rest.length).map (fun i => t + interval + i * interval) =
        (List.range rest.length).map ((fun i => t + i * interval) ∘ Nat.succ) := by
      congr 1
      funext i
      simp only [Function.comp, Nat.succ_eq_add_one]
      ring
    simp only [List.length_cons]
    rw [List.range_succ_eq_map rest.length, List.map_cons, List.map_map, ← harith]
    simp

/-- C4: for every variant (any polling closure `step` with probe inputs on
which it answers "not terminating" and "terminating"), a response sequence of
k "not terminating" answers followed by one terminating answer makes the run
perform exactly k+1 probes, the first at elapsed time 0 (no initial delay),
and invoke the reconciliation exactly once. -/
theorem poll_count_and_single_reconcile {α : Type} (step : α → Except String Bool)
    (a b : α) (ha : step a = Except.ok false) (hb : step b = Except.ok true)
    (interval k now : Nat) (nodeName : String)
    (get : Except String Node) (update : Node → Option String) :
    (handlerRun step interval (List.replicate k a ++ [b]) now nodeName get update).2.probeTimes.length = k + 1
    ∧ (handlerRun step interval (List.replicate k a ++ [b]) now nodeName get update).2.probeTimes.head? = some 0
    ∧ (handlerRun step interval (List.replicate k a ++ [b]) now nodeName get update).2.reconcileCalls = 1 := by
  have hp := pollImmediateUntil_replicate_detect step a b ha hb interval k 0
  simp only [handlerRun, hp]
  rcases hm : markNodeForDeletion now nodeName get update with ⟨res, ops⟩
  cases res with
  | error e =>
    refine ⟨by simp, ?_, rfl⟩
    rw [List.range_succ_eq_map k, List.map_cons, List.head?_cons]
    simp
  | ok u =>
    refine ⟨by simp, ?_, rfl⟩
    rw [List.range_succ_eq_map k, List.map_cons, List.head?_cons]
    simp

/-- C4 witness: the gcp variant, two "FALSE" bodies then "TRUE": three probes,
first at time 0, one reconciliation. -/
theorem poll_count_and_single_reconcile_witness :
    gcpPollCondition "FALSE" = Except.ok false
    ∧ gcpPollCondition "TRUE" = Except.ok true
    ∧ (handlerRun gcpPollCondition 5 (List.replicate 2 "FALSE" ++ ["TRUE"]) 0 "node0"
        (Except.ok ⟨⟨[readyCondition]⟩⟩) (fun _ => none)).2.probeTimes.length = 2 + 1
    ∧ (handlerRun gcpPollCondition 5 (List.replicate 2 "FALSE" ++ ["TRUE"]) 0 "node0"
        (Except.ok ⟨⟨[readyCondition]⟩⟩) (fun _ => none)).2.reconcileCalls = 1 :=
  ⟨rfl, rfl,
    (poll_count_and_single_reconcile gcpPollCondition "FALSE" "TRUE" rfl rfl
      5 2 0 "node0" (Except.ok ⟨⟨[readyCondition]⟩⟩) (fun _ => none)).1,
    (poll_count_and_single_reconcile gcpPollCondition "FALSE" "TRUE" rfl rfl
      5 2 0 "node0" (Except.ok ⟨⟨[readyCondition]⟩⟩) (fun _ => none)).2.2⟩

/-- C3: when the stop signal fires before any probe has reported terminating
(every probe observed before cancellation answered "not terminating"), the
supervisor's stop branch returns nil, the joined background unit performed no
reconciliation, and no cluster API call (node fetch or status update) was
ever made. -/
theorem stop_before_detection_no_reconcile {α : Type} (step : α → Except String Bool)
    (interval now : Nat) (nodeName : String) (get : Except String Node)
    (update : Node → Option String) (observed : List α)
    (h : ∀ r ∈ observed, step r = Except.ok false) :
    (RunStopBranch step interval observed now nodeName get update).1 = Except.ok ()
    ∧ (RunStopBranch step interval observed now nodeName get update).2.reconcileCalls = 0
    ∧ (RunStopBranch step interval observed now nodeName get update).2.apiOps = [] := by
  have hp := pollImmediateUntil_all_false step interval observed 0 h
  simp [RunStopBranch, handlerRun, hp]

/-- C3 witness: the gcp variant stopped after two "not terminating" probes:
Run returns ok and the trace shows no reconciliation and no API call. -/
theorem stop_before_detection_no_reconcile_witness :
    (∀ r ∈ ["FALSE", "NO"], gcpPollCondition r = Except.ok false)
    ∧ (RunStopBranch gcpPollCondition 5 ["FALSE", "NO"] 0 "node0"
        (Except.ok ⟨⟨[readyCondition]⟩⟩) (fun _ => none)).1 = Except.ok ()
    ∧ (RunStopBranch gcpPollCondition 5 ["FALSE", "NO"] 0 "node0"
        (Except.ok ⟨⟨[readyCondition]⟩⟩) (fun _ => none)).2.reconcileCalls = 0 :=
  ⟨by intro r hr; fin_cases hr <;> rfl,
    (stop_before_detection_no_reconcile gcpPollCondition 5 0 "node0"
      (Except.ok ⟨⟨[readyCondition]⟩⟩) (fun _ => none) ["FALSE", "NO"]
      (by intro r hr; fin_cases hr <;> rfl)).1,
    (stop_before_detection_no_reconcile gcpPollCondition 5 0 "node0"
      (Except.ok ⟨⟨[readyCondition]⟩⟩) (fun _ => none) ["FALSE", "NO"]
      (by intro r hr; fin_cases hr <;> rfl)).2.1⟩

/-- C5: variant A (aws, status-code signal): a 404 response is "not
terminating" and the loop keeps polling the remaining responses; a 200
response is "terminating" and the loop stops at once; any other status makes
the probe fail with the status in the error, the run return that error
wrapped, and no reconciliation happen. -/
theorem aws_status_classification (statusCode : Nat)
    (rest : List (Except String Nat)) (interval t : Nat) :
    (statusCode = httpStatusNotFound →
      awsPollCondition (Except.ok statusCode) = Except.ok false
      ∧ pollImmediateUntil awsPollCondition interval t (Except.ok statusCode :: rest) =
          (t :: (pollImmediateUntil awsPollCondition interval (t + interval) rest).1,
            (pollImmediateUntil awsPollCondition interval (t + interval) rest).2))
    ∧ (statusCode = httpStatusOK →
      awsPollCondition (Except.ok statusCode) = Except.ok true
      ∧ pollImmediateUntil awsPollCondition interval t (Except.ok statusCode :: rest) =
          ([t], PollOutcome.detected))
    ∧ (statusCode ≠ httpStatusNotFound → statusCode ≠ httpStatusOK →
      awsPollCondition (Except.ok statusCode) =
        Except.error ("unexpected status: " ++ toString statusCode)
      ∧ ∀ (now : Nat) (nodeName : String) (get : Except String Node)
          (update : Node → Option String),
          (handlerRun awsPollCondition interval (Except.ok statusCode :: rest)
              now nodeName get update).1 =
            Except.error ("error polling termination endpoint: " ++
              ("unexpected status: " ++ toString statusCode))
          ∧ (handlerRun awsPollCondition interval (Except.ok statusCode :: rest)
              now nodeName get update).2.reconcileCalls = 0) := by
  refine ⟨?_, ?_, ?_⟩
  · rintro rfl
    have hc : awsPollCondition (Except.ok httpStatusNotFound) = Except.ok false := rfl
    refine ⟨hc, ?_⟩
    simp only [pollImmediateUntil, hc]
  · rintro rfl
    have hc : awsPollCondition (Except.ok httpStatusOK) = Except.ok true := rfl
    refine ⟨hc, ?_⟩
    simp only [pollImmediateUntil, hc]
  · intro h404 h200
    have hc : awsPollCondition (Except.ok statusCode) =
        Except.error ("unexpected status: " ++ toString statusCode) := by
      simp only [awsPollCondition, beq_iff_eq, httpStatusNotFound, httpStatusOK] at h404 h200 ⊢
      rw [if_neg (by simpa using h404), if_neg (by simpa using h200)]
    refine ⟨hc, fun now nodeName get update => ?_⟩
    simp [handlerRun, pollImmediateUntil, hc]

/-- C5 witness: a 500 response yields the protocol error and a run receiving
it returns the wrapped error without reconciling. -/
theorem aws_status_classification_witness :
    ((500 : Nat) ≠ httpStatusNotFound)
    ∧ ((500 : Nat) ≠ httpStatusOK)
    ∧ awsPollCondition (Except.ok 500) = Except.error ("unexpected status: " ++ toString 500)
    ∧ (handlerRun awsPollCondition 5 [Except.ok 500] 0 "node0"
        (Except.ok ⟨⟨[readyCondition]⟩⟩) (fun _ => none)).2.reconcileCalls = 0 :=
  ⟨by decide, by decide,
    ((aws_status_classification 500 [] 5 0).2.2 (by decide) (by decide)).1,
    (((aws_status_classification 500 [] 5 0).2.2 (by decide) (by decide)).2
      0 "node0" (Except.ok ⟨⟨[readyCondition]⟩⟩) (fun _ => none)).2⟩

lemma hasPreemptEvent_iff (l : List events) :
    hasPreemptEvent l = true ↔ ∃ e ∈ l, e.EventType = preemptEventType := by
  induction l with
  | nil => simp [hasPreemptEvent]
  | cons e rest ih =>
    simp only [hasPreemptEvent]
    by_cases he : e.EventType = preemptEventType
    · simp [he]
    · rw [if_neg (by simpa using he)]
      rw [ih]
      simp [he]

/-- C6: variant B (azure, structured-event signal): on a body that
unmarshals, the probe reports terminating exactly when some event has
EventType "Preempt" (and "not terminating" exactly otherwise); a body that
fails to unmarshal turns into a parse error, which the run returns wrapped
with no reconciliation. -/
theorem azure_preempt_classification (body : Except String scheduledEvents)
    (interval : Nat) (rest : List (Except String scheduledEvents)) :
    (∀ s, body = Except.ok s →
      (azurePollCondition body = Except.ok true ↔ ∃ e ∈ s.Events, e.EventType = preemptEventType)
      ∧ (azurePollCondition body = Except.ok false ↔
          ¬ ∃ e ∈ s.Events, e.EventType = preemptEventType))
    ∧ (∀ msg, body = Except.error msg →
      azurePollCondition body = Except.error ("failed to unmarshal responce body: " ++ msg)
      ∧ ∀ (now : Nat) (nodeName : String) (get : Except String Node)
          (update : Node → Option String),
          (handlerRun azurePollCondition interval (body :: rest) now nodeName get update).1 =
            Except.error ("error polling termination endpoint: " ++
              ("failed to unmarshal responce body: " ++ msg))
          ∧ (handlerRun azurePollCondition interval (body :: rest)
              now nodeName get update).2.reconcileCalls = 0) := by
  constructor
  · rintro s rfl
    constructor
    · rw [show azurePollCondition (Except.ok s) = Except.ok (hasPreemptEvent s.Events) from rfl]
      rw [Except.ok.injEq]
      exact hasPreemptEvent_iff s.Events
    · rw [show azurePollCondition (Except.ok s) = Except.ok (hasPreemptEvent s.Events) from rfl]
      rw [Except.ok.injEq, ← hasPreemptEvent_iff s.Events]
      cases hasPreemptEvent s.Events <;> simp
  · rintro msg rfl
    have hc : azurePollCondition (Except.error msg) =
        Except.error ("failed to unmarshal responce body: " ++ msg) := rfl
    refine ⟨hc, fun now nodeName get update => ?_⟩
    simp [handlerRun, pollImmediateUntil, hc]

/-- C6 witness: a Reboot event is not terminating, a Preempt event is, and a
malformed body aborts the run without reconciliation. -/
theorem azure_preempt_classification_witness :
    (Except.ok ⟨[⟨"Preempt"⟩]⟩ = (Except.ok ⟨[⟨"Preempt"⟩]⟩ : Except String scheduledEvents))
    ∧ (azurePollCondition (Except.ok ⟨[⟨"Preempt"⟩]⟩) = Except.ok true ↔
        ∃ e ∈ [(⟨"Preempt"⟩ : events)], e.EventType = preemptEventType)
    ∧ (Except.error "bad json" = (Except.error "bad json" : Except String scheduledEvents))
    ∧ (handlerRun azurePollCondition 5 [Except.error "bad json"] 0 "node0"
        (Except.ok ⟨⟨[readyCondition]⟩⟩) (fun _ => none)).2.reconcileCalls = 0 :=
  ⟨rfl,
    ((azure_preempt_classification (Except.ok ⟨[⟨"Preempt"⟩]⟩) 5 []).1 ⟨[⟨"Preempt"⟩]⟩ rfl).1,
    rfl,
    (((azure_preempt_classification (Except.error "bad json") 5 []).2 "bad json" rfl).2
      0 "node0" (Except.ok ⟨⟨[readyCondition]⟩⟩) (fun _ => none)).2⟩

/-- C7: variant C (gcp, plain-text signal): the probe reports terminating
exactly when the response body is the string "TRUE"; any other body is "not
terminating" and the loop keeps polling the remaining responses. -/
theorem gcp_body_classification (respBody : String)
    (interval t : Nat) (rest : List String) :
    (gcpPollCondition respBody = Except.ok true ↔ respBody = "TRUE")
    ∧ (respBody ≠ "TRUE" →
      gcpPollCondition respBody = Except.ok false
      ∧ pollImmediateUntil gcpPollCondition interval t (respBody :: rest) =
          (t :: (pollImmediateUntil gcpPollCondition interval (t + interval) rest).1,
            (pollImmediateUntil gcpPollCondition interval (t + interval) rest).2)) := by
  by_cases h : respBody = "TRUE"
  · subst h
    refine ⟨by simp [gcpPollCondition], fun hne => absurd rfl hne⟩
  · have hc : gcpPollCondition respBody = Except.ok false := by
      simp only [gcpPollCondition]
      rw [if_neg (by simpa using h)]
    refine ⟨?_, fun _ => ⟨hc, ?_⟩⟩
    · rw [hc]
      simp [h]
    · simp only [pollImmediateUntil, hc]

/-- C7 witness: the body "FALSE" is not "TRUE", the probe answers "not
terminating" on it, and "TRUE" satisfies the iff. -/
theorem gcp_body_classification_witness :
    ("FALSE" ≠ "TRUE")
    ∧ gcpPollCondition "FALSE" = Except.ok false
    ∧ (gcpPollCondition "TRUE" = Except.ok true ↔ "TRUE" = "TRUE") :=
  ⟨by decide,
    ((gcp_body_classification "FALSE" 5 0 []).2 (by decide)).1,
    (gcp_body_classification "TRUE" 5 0 []).1⟩

/-- C8 counterexample: when the status update fails, the error reaching the
top of the run is the fixed text "error marking machine: error updating node
status" whatever the underlying cause was — two runs whose updates fail with
different causes return the very same error, so the underlying cause of the
update failure is swallowed. -/
theorem update_error_cause_swallowed_cex :
    (handlerRun awsPollCondition 5 [Except.ok 200] 0 "node0"
        (Except.ok ⟨⟨[readyCondition]⟩⟩) (fun _ => some "connection reset")).1 =
      Except.error "error marking machine: error updating node status"
    ∧ (handlerRun awsPollCondition 5 [Except.ok 200] 0 "node0"
        (Except.ok ⟨⟨[readyCondition]⟩⟩) (fun _ => some "connection reset")).1 =
      (handlerRun awsPollCondition 5 [Except.ok 200] 0 "node0"
        (Except.ok ⟨⟨[readyCondition]⟩⟩) (fun _ => some "quota exceeded")).1 :=
  ⟨rfl, rfl⟩

/-- C8 (amended): every internal failure surfaces as an error of the
top-level run, wrapped with the attempted operation — the probe's transport
failure with the polled URL, the poll error with "error polling termination
endpoint", the node fetch with "error fetching node", the update with
"error marking machine: error updating node status" — and the underlying
cause is kept in the wrap for probe and fetch failures, while the status
update failure is reduced to that fixed message without its cause. -/
theorem run_error_propagation (e cause : String) (interval now : Nat)
    (nodeName : String) (node : Node) (update : Node → Option String)
    (rest : List (Except String Nat)) :
    (handlerRun awsPollCondition interval (Except.error e :: rest)
        now nodeName (Except.ok node) update).1 =
      Except.error ("error polling termination endpoint: " ++
        ("could not get URL " ++ goQuote awsTerminationEndpointURL ++ ": " ++ e))
    ∧ (handlerRun awsPollCondition interval [Except.ok httpStatusOK]
        now nodeName (Except.error e) update).1 =
      Except.error ("error marking machine: " ++ ("error fetching node: " ++ e))
    ∧ (handlerRun awsPollCondition interval [Except.ok httpStatusOK]
        now nodeName (Except.ok node) (fun _ => some cause)).1 =
      Except.error ("error marking machine: " ++ "error updating node status") := by
  refine ⟨?_, ?_, ?_⟩
  · have hc : awsPollCondition (Except.error e) =
        Except.error ("could not get URL " ++ goQuote awsTerminationEndpointURL ++ ": " ++ e) := rfl
    simp only [handlerRun, pollImmediateUntil, hc]
  · have hc : awsPollCondition (Except.ok httpStatusOK) = Except.ok true := rfl
    simp only [handlerRun, pollImmediateUntil, hc, markNodeForDeletion]
  · have hc : awsPollCondition (Except.ok httpStatusOK) = Except.ok true := rfl
    simp only [handlerRun, pollImmediateUntil, hc, markNodeForDeletion]
